import Mathlib

/-!
Verification development for the lazy Orc-based JIT engine (`OrcLazyJIT`,
tools/lli) and the module debug-info printer
(`lib/Analysis/ModuleDebugInfoPrinter.cpp`).

The C++ sources are shallowly embedded: the Engine's mutable members become a
Lean structure, `addModule` / `findSymbol` / `findSymbolIn` / the fallback
resolution lambda become pure functions over that structure, and the
destructor `~OrcLazyJIT` becomes a function producing the ordered trace of
teardown events.  External LLVM layers (the COD layer's symbol tables, the
runtime-override registry, the host process symbol table, the Mangler) are
modelled as finite tables / deterministic functions, with their query
operations translated from their documented contracts.
-/

namespace OrcLazy

/-- JITSymbolFlags: we only track the flags the embedded code inspects
(`Exported`) plus `Weak` for completeness of the `(address, flags)` pair. -/
structure SymbolFlags where
  exported : Bool
  weak : Bool
deriving DecidableEq, Repr

/-- JITSymbolFlags::Exported. -/
def exportedFlags : SymbolFlags := { exported := true, weak := false }

/-- JITSymbolFlags::None (the flags of `RuntimeDyld::SymbolInfo(nullptr)`). -/
def noneFlags : SymbolFlags := { exported := false, weak := false }

/-- A symbol definition exposed by a compiled unit: its (already mangled)
name, the address it materialises to, and its flags. -/
structure SymbolDef where
  name : String
  address : Nat
  flags : SymbolFlags
deriving DecidableEq, Repr

/-- RuntimeDyld::SymbolInfo: an address (0 models the null address, i.e.
`unresolved`) together with symbol flags. -/
structure SymbolInfo where
  address : Nat
  flags : SymbolFlags
deriving DecidableEq, Repr

/-- RuntimeDyld::SymbolInfo(nullptr): the unresolved result. -/
def SymbolInfo.null : SymbolInfo := { address := 0, flags := noneFlags }

/-- One module set held by the CompileOnDemandLayer: its handle, the data
layout the unit carried when it was submitted downstream, and its symbol
table keyed by mangled names. -/
structure JITUnit where
  handle : Nat
  layout : String
  symbols : List SymbolDef
deriving DecidableEq, Repr

/-- Lookup of a mangled name inside one unit's symbol table.  With
`exportedOnly = true` (the visibility both `findSymbol` calls in the source
pass) a non-exported definition is not a match. -/
def findDef (syms : List SymbolDef) (Name : String) (exportedOnly : Bool) :
    Option SymbolDef :=
  syms.find? (fun s => s.name == Name && (!exportedOnly || s.flags.exported))

/-- Modelled from the spec: `CompileOnDemandLayer::findSymbol` (the layer
stack is external to src/) searches the added module sets in insertion order
and returns the first match. -/
def codFindSymbol (units : List JITUnit) (Name : String)
    (exportedOnly : Bool) : Option SymbolDef :=
  match units with
  | [] => none
  | u :: rest =>
    match findDef u.symbols Name exportedOnly with
    | some s => some s
    | none => codFindSymbol rest Name exportedOnly

/-- Modelled from the spec: `CompileOnDemandLayer::findSymbolIn` (external to
src/) searches only the module set identified by the handle. -/
def codFindSymbolIn (units : List JITUnit) (H : Nat) (Name : String)
    (exportedOnly : Bool) : Option SymbolDef :=
  match units.find? (fun u => u.handle == H) with
  | some u => findDef u.symbols Name exportedOnly
  | none => none

/-- LocalCXXRuntimeOverrides: the override table (mangled name to native
function pointer, registered once at construction) plus the pending
`__cxa_atexit`-recorded destructor routines, in registration order. -/
structure LocalCXXRuntimeOverrides where
  overrides : List (String × Nat)
  recordedDestructors : List String
deriving DecidableEq, Repr

/-- Modelled from the spec: `LocalCXXRuntimeOverrides::searchOverrides`
(external to src/) is an exact-name lookup in the override table, returning
an exported symbol on a hit. -/
def searchOverrides (o : LocalCXXRuntimeOverrides) (Name : String) :
    Option SymbolInfo :=
  match o.overrides.find? (fun p => p.fst == Name) with
  | some p => some { address := p.snd, flags := exportedFlags }
  | none => none

/-- Modelled from the spec: `RTDyldMemoryManager::getSymbolAddressInProcess`
(external to src/) consults the host process's dynamic symbol table; it
returns 0 when the name is not found. -/
def getSymbolAddressInProcess (proc : List (String × Nat)) (Name : String) :
    Nat :=
  match proc.find? (fun p => p.fst == Name) with
  | some p => p.snd
  | none => 0

/-- Modelled from the spec: `Mangler::getNameWithPrefix` (external to src/)
is the deterministic target-ABI decoration, a pure function of the logical
name and the ABI decoration string fixed when the Mangler is built from the
target data layout.  We model the decoration as prepending that string. -/
def manglerGetName (abi : String) (Name : String) : String := abi ++ Name

/-- OrcLazyJIT::mangle: stream the Mangler's decoration of the name into a
string and return it. -/
def mangle (abi : String) (Name : String) : String := manglerGetName abi Name

/-- A static constructor or destructor function of a module, in the order
discovered by `orc::getConstructors` / `orc::getDestructors`. -/
structure FuncDef where
  fname : String
  address : Nat
  flags : SymbolFlags
deriving DecidableEq, Repr

/-- A compilation unit (llvm::Module) as the embedded code observes it: its
data layout string (the empty string models `DataLayout().isDefault()`), the
static constructor and destructor function names in discovery order, and the
functions it will expose once compiled (logical names; the compiler mangles
them with the same data layout). -/
structure Module where
  layout : String
  ctors : List String
  dtors : List String
  funcs : List FuncDef
deriving DecidableEq, Repr

/-- orc::CtorDtorRunner: an ordered list of mangled function names tagged
with the ModuleHandle of the unit they belong to. -/
structure CtorDtorRunner where
  names : List String
  handle : Nat
deriving DecidableEq, Repr

/-- The OrcLazyJIT engine state: the Mangler's ABI decoration (fixed at
construction from the TargetMachine's data layout), the TargetMachine's
default data layout, the COD layer's module sets in insertion order, the
C++ runtime override registry, the recorded IR static destructor runners,
the host process symbol table, and the next fresh ModuleHandle. -/
structure OrcLazyJIT where
  mang : String
  tmDataLayout : String
  codLayer : List JITUnit
  cxxRuntimeOverrides : LocalCXXRuntimeOverrides
  irStaticDestructorRunners : List CtorDtorRunner
  processSymbols : List (String × Nat)
  nextHandle : Nat
deriving DecidableEq, Repr

/-- Lines 202-204: attach the TargetMachine's default data layout if the
module's layout is absent (default); otherwise leave the module unchanged. -/
def stampDataLayout (d : String) (M : Module) : Module :=
  if M.layout = "" then { M with layout := d } else M

/-- The symbol-resolution callback built inside `addModule` (lines 218-231):
tier 1 searches the JIT symbols through the COD layer with exported-only
visibility; tier 2 checks the C++ runtime overrides; tier 3 searches the
host process's symbol table; a miss of all three returns
`SymbolInfo(nullptr)`.  It is a pure query: it takes the engine state and
returns a `SymbolInfo`, producing no new state. -/
def fallbackLookup (j : OrcLazyJIT) (Name : String) : SymbolInfo :=
  match codFindSymbol j.codLayer Name true with
  | some Sym => { address := Sym.address, flags := Sym.flags }
  | none =>
    match searchOverrides j.cxxRuntimeOverrides Name with
    | some Sym => Sym
    | none =>
      let Addr := getSymbolAddressInProcess j.processSymbols Name
      if Addr ≠ 0 then { address := Addr, flags := exportedFlags }
      else SymbolInfo.null

/-- Result of `OrcLazyJIT::addModule`: the returned ModuleHandle, the engine
state after the call, and the mangled constructor names the call invoked
(via `CtorRunner.runViaLayer`) before returning, in invocation order. -/
structure AddModuleResult where
  handle : Nat
  jit : OrcLazyJIT
  ctorsRun : List String
deriving DecidableEq, Repr

/-- OrcLazyJIT::addModule (lines 201-247).  Steps, in source order: stamp the
default data layout if absent; record the mangled static constructor and
destructor names from the module (before ownership transfer); add the module
set to the COD layer, obtaining a fresh handle; run the constructor runner
immediately; push a destructor runner holding the mangled destructor names
tagged with the handle; return the handle. -/
def addModule (j : OrcLazyJIT) (M0 : Module) : AddModuleResult :=
  let M := stampDataLayout j.tmDataLayout M0
  let CtorNames := M.ctors.map (fun n => mangle j.mang n)
  let DtorNames := M.dtors.map (fun n => mangle j.mang n)
  let H := j.nextHandle
  let newUnit : JITUnit :=
    { handle := H
      layout := M.layout
      symbols := M.funcs.map (fun f =>
        { name := mangle j.mang f.fname
          address := f.address
          flags := f.flags }) }
  { handle := H
    jit := { j with
      codLayer := j.codLayer ++ [newUnit]
      nextHandle := H + 1
      irStaticDestructorRunners :=
        j.irStaticDestructorRunners ++ [{ names := DtorNames, handle := H }] }
    ctorsRun := CtorNames }

/-- OrcLazyJIT::findSymbol (lines 249-251): mangle the name, then query the
COD layer across all added units with exported-only visibility. -/
def OrcLazyJIT.findSymbol (j : OrcLazyJIT) (Name : String) :
    Option SymbolDef :=
  codFindSymbol j.codLayer (mangle j.mang Name) true

/-- OrcLazyJIT::findSymbolIn (lines 253-255): mangle the name, then query
the COD layer scoped to the unit identified by the handle, with
exported-only visibility. -/
def OrcLazyJIT.findSymbolIn (j : OrcLazyJIT) (H : Nat) (Name : String) :
    Option SymbolDef :=
  codFindSymbolIn j.codLayer H (mangle j.mang Name) true

/-- One observable action of Engine teardown: either a pending
`__cxa_atexit`-registered cleanup routine run by
`CXXRuntimeOverrides.runDestructors()`, or one mangled IR static destructor
run by a unit's `CtorDtorRunner`. -/
inductive TeardownEvent where
  | overrideCleanup (name : String)
  | unitDtor (handle : Nat) (name : String)
deriving DecidableEq, Repr

/-- Whether a teardown event is an override-registry cleanup routine. -/
def TeardownEvent.isOverrideCleanup : TeardownEvent → Bool
  | .overrideCleanup _ => true
  | .unitDtor _ _ => false

/-- Whether a teardown event is a per-unit IR static destructor. -/
def TeardownEvent.isUnitDtor : TeardownEvent → Bool
  | .overrideCleanup _ => false
  | .unitDtor _ _ => true

/-- Modelled from the spec: `LocalCXXRuntimeOverrides::runDestructors`
(external to src/) runs the pending `__cxa_atexit`-registered cleanup
routines. -/
def runDestructors (o : LocalCXXRuntimeOverrides) : List TeardownEvent :=
  o.recordedDestructors.map TeardownEvent.overrideCleanup

/-- Modelled from the spec: `CtorDtorRunner::runViaLayer` (external to src/)
looks up each recorded mangled name in the runner's unit and invokes it;

its observable trace is the runner's names in order, tagged with its
handle. -/
def runnerEvents (r : CtorDtorRunner) : List TeardownEvent :=
  r.names.map (fun n => TeardownEvent.unitDtor r.handle n)

/-- The destructor `~OrcLazyJIT` (lines 188-194): first run any destructors
registered with `__cxa_atexit` (`CXXRuntimeOverrides.runDestructors()`),
then run the IR static destructor runners by iterating
`IRStaticDestructorRunners` front to back. -/
def orcLazyJITDtor (j : OrcLazyJIT) : List TeardownEvent :=
  runDestructors j.cxxRuntimeOverrides
    ++ (j.irStaticDestructorRunners.map runnerEvents).flatten

/-- Modelled from the spec: the per-partition state machine of the
CompileOnDemandLayer and its Callback Manager (external to src/):
`Stubbed`, then `Compiling` (owned by the thread whose compare-and-swap
won), then `Resolved` at the compiled address. -/
inductive PartitionState where
  | stubbed
  | compiling (owner : Nat)
  | resolved (addr : Nat)
deriving DecidableEq, Repr

/-- Modelled from the spec: the observable per-partition compile state, the
partition's state-machine field plus the number of completed
compile-and-link operations for it. -/
structure CODState where
  part : PartitionState
  compiles : Nat
deriving DecidableEq, Repr

/-- The initial state of a partition: stubbed, never compiled. -/
def codInit : CODState := { part := .stubbed, compiles := 0 }

/-- Modelled from the spec: the transitions of a partition.  `acquire` is a
trampoline firing whose compare-and-swap on the compilation-state field
won, moving the partition to Compiling; a racer whose compare-and-swap
loses has no transition of its own and blocks.  `finish` is the owner's
compile-and-link completing at a (nonzero) resolved address, which counts
as one completed compilation.  No transition leaves Resolved. -/
inductive CODStep : CODState → CODState → Prop where
  | acquire (t n : Nat) :
      CODStep { part := .stubbed, compiles := n }
        { part := .compiling t, compiles := n }
  | finish (t a n : Nat) (ha : a ≠ 0) :
      CODStep { part := .compiling t, compiles := n }
        { part := .resolved a, compiles := n + 1 }

end OrcLazy

namespace DebugInfoPrinter

/-- The `printFile` helper of ModuleDebugInfoPrinter.cpp (lines 58-69),
returning the text it streams to the output: nothing when the filename is
empty; otherwise " from ", then the directory and a "/" separator when the
directory is non-empty, then the filename, then ":" and the line number
when the line number is non-zero. -/
def printFile (Filename Directory : String) (Line : Nat) : String :=
  if Filename = "" then ""
  else
    " from "
      ++ (if Directory ≠ "" then Directory ++ "/" else "")
      ++ Filename
      ++ (if Line ≠ 0 then ":" ++ toString Line else "")

end DebugInfoPrinter

namespace OrcLazy

/-- Helper: string concatenation is associative. -/
theorem str_append_assoc (a b c : String) : a ++ b ++ c = a ++ (b ++ c) := by
  cases a
  cases b
  cases c
  show String.mk _ = String.mk _
  simp [String.append]

/-- Helper: stamping a data layout does not change the constructor list. -/
theorem stampDataLayout_ctors (d : String) (M : Module) :
    (stampDataLayout d M).ctors = M.ctors := by
  unfold stampDataLayout
  split <;> rfl

/-- Helper: stamping a data layout does not change the destructor list. -/
theorem stampDataLayout_dtors (d : String) (M : Module) :
    (stampDataLayout d M).dtors = M.dtors := by
  unfold stampDataLayout
  split <;> rfl

/-- Helper: stamping a data layout does not change the function list. -/
theorem stampDataLayout_funcs (d : String) (M : Module) :
    (stampDataLayout d M).funcs = M.funcs := by
  unfold stampDataLayout
  split <;> rfl

/-- Helper: the layout after stamping is the default when the module's was
absent, and the module's own layout otherwise. -/
theorem stampDataLayout_layout (d : String) (M : Module) :
    (stampDataLayout d M).layout = (if M.layout = "" then d else M.layout) := by
  unfold stampDataLayout
  split <;> rfl

/-- Helper: a symbol found by `findDef` under exported-only visibility bears
the queried name and is exported. -/
theorem findDef_exported_props (syms : List SymbolDef) (Name : String)
    (s : SymbolDef) (h : findDef syms Name true = some s) :
    s.name = Name ∧ s.flags.exported = true := by
  have hp := List.find?_some h
  simp at hp
  exact hp

/-- Helper: a symbol found by the COD layer's search under exported-only
visibility bears the queried name and is exported. -/
theorem codFindSymbol_exported_props (units : List JITUnit) (Name : String)
    (s : SymbolDef) (h : codFindSymbol units Name true = some s) :
    s.name = Name ∧ s.flags.exported = true := by
  induction units with
  | nil => simp [codFindSymbol] at h
  | cons u rest ih =>
    rw [codFindSymbol] at h
    cases hf : findDef u.symbols Name true with
    | some t =>
      rw [hf] at h
      cases h
      exact findDef_exported_props u.symbols Name s hf
    | none =>
      rw [hf] at h
      exact ih h

/-- Helper: when every added unit misses the queried (mangled) name, the COD
layer's search across all units misses. -/
theorem codFindSymbol_eq_none (units : List JITUnit) (Name : String)
    (eo : Bool) (h : ∀ u ∈ units, findDef u.symbols Name eo = none) :
    codFindSymbol units Name eo = none := by
  induction units with
  | nil => rfl
  | cons u rest ih =>
    rw [codFindSymbol, h u (List.mem_cons_self u rest)]
    exact ih (fun v hv => h v (List.mem_cons_of_mem u hv))

/-- Helper: the only transition available from a Compiling partition is the
owning compile finishing at a nonzero resolved address; in particular a
racing trampoline firing cannot begin a second compile while one is in
flight. -/
theorem codStep_from_compiling (t n : Nat) (v : CODState)
    (h : CODStep { part := .compiling t, compiles := n } v) :
    ∃ b, b ≠ 0 ∧ v = { part := .resolved b, compiles := n + 1 } := by
  cases h with
  | finish t b n hb => exact ⟨b, hb, rfl⟩

/-- Helper: no transition leaves a Resolved partition. -/
theorem codStep_not_from_resolved (a : Nat) (s v : CODState)
    (hp : s.part = .resolved a) (h : CODStep s v) : False := by
  cases h <;> simp_all

/-- Helper: invariant of the partition state machine from the initial
(stubbed, never-compiled) state: no compile has completed before or during
the Compiling phase, and exactly one has completed once Resolved. -/
theorem cod_reachable_invariant (s : CODState)
    (h : Relation.ReflTransGen CODStep codInit s) :
    (s.part = .stubbed → s.compiles = 0) ∧
    (∀ t, s.part = .compiling t → s.compiles = 0) ∧
    (∀ a, s.part = .resolved a → s.compiles = 1) := by
  induction h with
  | refl => simp [codInit]
  | tail hab step ih =>
    cases step with
    | acquire t n =>
      have hn : n = 0 := ih.1 rfl
      subst hn
      refine ⟨by simp, fun t' _ => rfl, fun a ha => by simp at ha⟩
    | finish t a n ha =>
      have hn : n = 0 := ih.2.1 t rfl
      subst hn
      refine ⟨by simp, fun t' ht' => by simp at ht', fun b _ => rfl⟩

/-- Helper: a symbol found by the handle-scoped COD search under
exported-only visibility bears the queried name and is exported. -/
theorem codFindSymbolIn_exported_props (units : List JITUnit) (H : Nat)
    (Name : String) (s : SymbolDef)
    (h : codFindSymbolIn units H Name true = some s) :
    s.name = Name ∧ s.flags.exported = true := by
  rw [codFindSymbolIn] at h
  cases hf : units.find? (fun u => u.handle == H) with
  | some u =>
    rw [hf] at h
    exact findDef_exported_props u.symbols Name s h
  | none =>
    rw [hf] at h
    exact absurd h (by simp)

/-- Concrete engine fixture: "_f" is defined both by an added unit (address
7) and by the override registry (address 99); "_g" is present only in the
override registry (address 5) and the host process (address 6). -/
def jC1 : OrcLazyJIT where
  mang := "_"
  tmDataLayout := "e-m:e"
  codLayer :=
    [{ handle := 0
       layout := "e-m:e"
       symbols := [{ name := "_f", address := 7, flags := exportedFlags }] }]
  cxxRuntimeOverrides :=
    { overrides := [("_f", 99), ("_g", 5)], recordedDestructors := [] }
  irStaticDestructorRunners := []
  processSymbols := [("_g", 6)]
  nextHandle := 1

/-- Claim C1: the resolution callback built by addModule tries the three
tiers in order, stopping at the first success: (1) already-added JIT units
via the COD layer, (2) the runtime override registry, (3) the host
process's symbol table.  A tier-1 hit is returned regardless of the lower
tiers; tier 2 is consulted only on a tier-1 miss and its hit is returned
regardless of tier 3; tier 3 answers only when both upper tiers miss. -/
theorem fallbackLookup_tier_order (j : OrcLazyJIT) (Name : String) :
    (∀ s, codFindSymbol j.codLayer Name true = some s →
      fallbackLookup j Name = { address := s.address, flags := s.flags }) ∧
    (codFindSymbol j.codLayer Name true = none →
      ∀ si, searchOverrides j.cxxRuntimeOverrides Name = some si →
        fallbackLookup j Name = si) ∧
    (codFindSymbol j.codLayer Name true = none →
      searchOverrides j.cxxRuntimeOverrides Name = none →
      getSymbolAddressInProcess j.processSymbols Name ≠ 0 →
        fallbackLookup j Name =
          { address := getSymbolAddressInProcess j.processSymbols Name
            flags := exportedFlags }) := by
  refine ⟨fun s hs => ?_, fun h1 si hsi => ?_, fun h1 h2 h3 => ?_⟩
  · simp only [fallbackLookup, hs]
  · simp only [fallbackLookup, h1, hsi]
  · simp only [fallbackLookup, h1, h2]
    simp [h3]

/-- Witness for C1 at the concrete engine `jC1`: "_f", defined both in an
added unit and in the override registry, resolves to the unit's definition
(address 7, not the override's 99); "_g", present only in the override
registry and the host process, resolves to the override (address 5, not
the process's 6). -/
theorem fallbackLookup_tier_order_witness :
    fallbackLookup jC1 "_f" = { address := 7, flags := exportedFlags } ∧
    fallbackLookup jC1 "_g" = { address := 5, flags := exportedFlags } :=
  ⟨(fallbackLookup_tier_order jC1 "_f").1
      { name := "_f", address := 7, flags := exportedFlags } (by decide),
   (fallbackLookup_tier_order jC1 "_g").2.1 (by decide)
      { address := 5, flags := exportedFlags } (by decide)⟩

/-- Claim C7: a lookup that misses all three resolution tiers returns the
unresolved (null-address) `SymbolInfo` to the caller.  The callback is a
pure query of the engine state (it returns only a `SymbolInfo` and produces
no new state), so the miss leaves no observable state change. -/
theorem fallbackLookup_total_miss (j : OrcLazyJIT) (Name : String)
    (h1 : codFindSymbol j.codLayer Name true = none)
    (h2 : searchOverrides j.cxxRuntimeOverrides Name = none)
    (h3 : getSymbolAddressInProcess j.processSymbols Name = 0) :
    fallbackLookup j Name = SymbolInfo.null ∧
    (fallbackLookup j Name).address = 0 := by
  have hnull : fallbackLookup j Name = SymbolInfo.null := by
    simp only [fallbackLookup, h1, h2]
    simp [h3]
  exact ⟨hnull, by rw [hnull]; rfl⟩

/-- Witness for C7: on the concrete engine `jC1` the name "_zz" misses the
units, the override registry and the process table, and the lookup returns
the null-address result. -/
theorem fallbackLookup_total_miss_witness :
    fallbackLookup jC1 "_zz" = SymbolInfo.null ∧
    (fallbackLookup jC1 "_zz").address = 0 :=
  fallbackLookup_total_miss jC1 "_zz" (by decide) (by decide) (by decide)

/-- Concrete fresh-engine fixture: no units yet, no recorded destructor
runners, no pending override cleanups. -/
def jFresh : OrcLazyJIT where
  mang := "_"
  tmDataLayout := "e-m:e"
  codLayer := []
  cxxRuntimeOverrides := { overrides := [], recordedDestructors := [] }
  irStaticDestructorRunners := []
  processSymbols := []
  nextHandle := 0

/-- Concrete unit fixture A: one static destructor `dA`. -/
def modA : Module := { layout := "", ctors := [], dtors := ["dA"], funcs := [] }

/-- Concrete unit fixture B: one static destructor `dB`. -/
def modB : Module := { layout := "", ctors := [], dtors := ["dB"], funcs := [] }

/-- Concrete unit fixture C: one static destructor `dC`. -/
def modC : Module := { layout := "", ctors := [], dtors := ["dC"], funcs := [] }

/-- The engine after adding units A, B, C in that order. -/
def jABC : OrcLazyJIT :=
  (addModule (addModule (addModule jFresh modA).jit modB).jit modC).jit

/-- Counterexample to C2 as stated: for units added in order [A, B, C]
(with destructors dA, dB, dC and handles 0, 1, 2), teardown runs A's
destructor first, then B's, then C's — not C's, then B's, then A's as the
claim's reverse-of-addition ordering predicts. -/
theorem teardown_not_reverse_counterexample :
    orcLazyJITDtor jABC =
      [TeardownEvent.unitDtor 0 "_dA", TeardownEvent.unitDtor 1 "_dB",
        TeardownEvent.unitDtor 2 "_dC"] ∧
    orcLazyJITDtor jABC ≠
      [TeardownEvent.unitDtor 2 "_dC", TeardownEvent.unitDtor 1 "_dB",
        TeardownEvent.unitDtor 0 "_dA"] := by
  decide

/-- Claim C2 amended: at Engine teardown the recorded per-unit destructor
runners are run in the same (forward) order their owning units were added:
for units added in order [A, B, C], teardown runs A's destructors, then
B's, then C's (after the override-registered cleanup routines). -/
theorem teardown_forward_order (j : OrcLazyJIT) (A B C : Module)
    (h : j.irStaticDestructorRunners = []) :
    orcLazyJITDtor (addModule (addModule (addModule j A).jit B).jit C).jit
      = runDestructors j.cxxRuntimeOverrides
        ++ (runnerEvents
              { names := A.dtors.map (mangle j.mang), handle := j.nextHandle }
        ++ (runnerEvents
              { names := B.dtors.map (mangle j.mang),
                handle := j.nextHandle + 1 }
        ++ runnerEvents
              { names := C.dtors.map (mangle j.mang),
                handle := j.nextHandle + 2 })) := by
  simp [orcLazyJITDtor, addModule, stampDataLayout_dtors, h, runnerEvents,
    runDestructors]

/-- Witness for the amended C2 at the concrete engine: adding A, B, C to a
fresh engine and tearing down runs dA, then dB, then dC. -/
theorem teardown_forward_order_witness :
    orcLazyJITDtor jABC =
      [TeardownEvent.unitDtor 0 "_dA", TeardownEvent.unitDtor 1 "_dB",
        TeardownEvent.unitDtor 2 "_dC"] := by
  have h := teardown_forward_order jFresh modA modB modC rfl
  simpa [jABC, jFresh, modA, modB, modC, runnerEvents, runDestructors,
    mangle, manglerGetName] using h

/-- Concrete engine fixture with one pending override-registered cleanup
routine (`atexit1`) and one recorded per-unit destructor runner (`_d`,
unit handle 0). -/
def jC3 : OrcLazyJIT where
  mang := "_"
  tmDataLayout := "e-m:e"
  codLayer := [{ handle := 0, layout := "e-m:e", symbols := [] }]
  cxxRuntimeOverrides := { overrides := [], recordedDestructors := ["atexit1"] }
  irStaticDestructorRunners := [{ names := ["_d"], handle := 0 }]
  processSymbols := []
  nextHandle := 1

/-- Counterexample to C3 as stated: on an engine with one pending
override-registered cleanup routine and one per-unit destructor runner,
teardown runs the override cleanup first and the unit destructor second —
not the unit destructor first as the claim predicts. -/
theorem teardown_overrides_last_counterexample :
    orcLazyJITDtor jC3 =
      [TeardownEvent.overrideCleanup "atexit1", TeardownEvent.unitDtor 0 "_d"] ∧
    orcLazyJITDtor jC3 ≠
      [TeardownEvent.unitDtor 0 "_d", TeardownEvent.overrideCleanup "atexit1"] := by
  decide

/-- Claim C3 amended: at Engine teardown the pending override-registered
cleanup routines (the __cxa_atexit-style destructors held by the runtime
override registry) are executed first, and every recorded per-unit
destructor runner executes only after all of them: the teardown trace is
exactly the override cleanups followed by a suffix consisting solely of
per-unit destructor events. -/
theorem teardown_overrides_first (j : OrcLazyJIT) :
    ((orcLazyJITDtor j).take
        j.cxxRuntimeOverrides.recordedDestructors.length
      = runDestructors j.cxxRuntimeOverrides) ∧
    (∀ e ∈ (orcLazyJITDtor j).take
        j.cxxRuntimeOverrides.recordedDestructors.length,
      e.isOverrideCleanup = true) ∧
    (∀ e ∈ (orcLazyJITDtor j).drop
        j.cxxRuntimeOverrides.recordedDestructors.length,
      e.isUnitDtor = true) := by
  have hlen : j.cxxRuntimeOverrides.recordedDestructors.length
      = (runDestructors j.cxxRuntimeOverrides).length := by
    simp [runDestructors]
  have htake : (orcLazyJITDtor j).take
      j.cxxRuntimeOverrides.recordedDestructors.length
      = runDestructors j.cxxRuntimeOverrides := by
    rw [orcLazyJITDtor, hlen, List.take_left]
  have hdrop : (orcLazyJITDtor j).drop
      j.cxxRuntimeOverrides.recordedDestructors.length
      = (j.irStaticDestructorRunners.map runnerEvents).flatten := by
    rw [orcLazyJITDtor, hlen, List.drop_left]
  refine ⟨htake, fun e he => ?_, fun e he => ?_⟩
  · rw [htake] at he
    simp only [runDestructors, List.mem_map] at he
    obtain ⟨n, _, rfl⟩ := he
    rfl
  · rw [hdrop] at he
    simp only [List.mem_flatten, List.mem_map] at he
    obtain ⟨l, ⟨r, _, rfl⟩, hel⟩ := he
    simp only [runnerEvents, List.mem_map] at hel
    obtain ⟨n, _, rfl⟩ := hel
    rfl

/-- Witness for the amended C3 at the concrete engine `jC3`: the prefix of
the teardown trace is the override cleanup, and the event after it is a
per-unit destructor. -/
theorem teardown_overrides_first_witness :
    ((orcLazyJITDtor jC3).take
        jC3.cxxRuntimeOverrides.recordedDestructors.length
      = runDestructors jC3.cxxRuntimeOverrides) ∧
    TeardownEvent.isUnitDtor (TeardownEvent.unitDtor 0 "_d") = true :=
  ⟨(teardown_overrides_first jC3).1,
   (teardown_overrides_first jC3).2.2 (TeardownEvent.unitDtor 0 "_d")
     (by decide)⟩

/-- Claim C4: addModule stamps the backend's default data layout into the
unit if and only if the unit's data layout is absent (default); a unit that
already carries a layout is submitted downstream with that layout
unchanged.  The layout of the unit the COD layer receives (the last unit of
the layer after the call) is the default exactly when the incoming module's
was absent, and the module's own layout otherwise. -/
theorem addModule_stamps_default_layout (j : OrcLazyJIT) (M : Module) :
    ((addModule j M).jit.codLayer.getLast?).map JITUnit.layout
      = some (if M.layout = "" then j.tmDataLayout else M.layout) ∧
    (M.layout = "" →
      ((addModule j M).jit.codLayer.getLast?).map JITUnit.layout
        = some j.tmDataLayout) ∧
    (M.layout ≠ "" →
      ((addModule j M).jit.codLayer.getLast?).map JITUnit.layout
        = some M.layout) := by
  have h : ((addModule j M).jit.codLayer.getLast?).map JITUnit.layout
      = some (if M.layout = "" then j.tmDataLayout else M.layout) := by
    simp [addModule, List.getLast?_concat, stampDataLayout_layout]
  refine ⟨h, fun h0 => ?_, fun h0 => ?_⟩ <;> rw [h] <;> simp [h0]

/-- Concrete unit fixture with an absent (default) data layout. -/
def mNoLayout : Module := { layout := "", ctors := [], dtors := [], funcs := [] }

/-- Concrete unit fixture that already carries a data layout. -/
def mWithLayout : Module :=
  { layout := "e-p:44", ctors := [], dtors := [], funcs := [] }

/-- Witness for C4 at concrete inputs: a layout-less unit is submitted with
the backend's default layout stamped in, and a unit with its own layout is
submitted with that layout unchanged. -/
theorem addModule_stamps_default_layout_witness :
    (((addModule jFresh mNoLayout).jit.codLayer.getLast?).map JITUnit.layout
      = some jFresh.tmDataLayout) ∧
    (((addModule jFresh mWithLayout).jit.codLayer.getLast?).map JITUnit.layout
      = some mWithLayout.layout) :=
  ⟨(addModule_stamps_default_layout jFresh mNoLayout).2.1 rfl,
   (addModule_stamps_default_layout jFresh mWithLayout).2.2 (by decide)⟩

/-- Claim C5: for every unit accepted by addModule, the static constructor
and destructor names are discovered from the unit and mangled before
ownership transfers to the JIT; the constructor list is run immediately
(before addModule returns) in discovery order (`ctorsRun` is exactly the
module's constructors, mangled, in order); a destructor runner holding the
mangled destructor names tagged with the new handle is appended for
teardown; and the handle obtained from the COD layer is returned. -/
theorem addModule_ctor_dtor_discipline (j : OrcLazyJIT) (M : Module) :
    (addModule j M).ctorsRun = M.ctors.map (mangle j.mang) ∧
    (addModule j M).jit.irStaticDestructorRunners
      = j.irStaticDestructorRunners
        ++ [{ names := M.dtors.map (mangle j.mang)
              handle := (addModule j M).handle }] ∧
    (addModule j M).handle = j.nextHandle := by
  refine ⟨?_, ?_, rfl⟩ <;>
    simp [addModule, stampDataLayout_ctors, stampDataLayout_dtors]

/-- Concrete engine fixture for lookups: unit 0 defines an exported "_f"
(address 7) and a non-exported "_h" (address 9). -/
def jC6 : OrcLazyJIT where
  mang := "_"
  tmDataLayout := "e-m:e"
  codLayer :=
    [{ handle := 0
       layout := "e-m:e"
       symbols := [{ name := "_f", address := 7, flags := exportedFlags },
                   { name := "_h", address := 9, flags := noneFlags }] }]
  cxxRuntimeOverrides := { overrides := [], recordedDestructors := [] }
  irStaticDestructorRunners := []
  processSymbols := []
  nextHandle := 1

/-- Claim C6: findSymbol applies the mangler to the name and queries the COD
layer across all added units with exported-only visibility, and
findSymbolIn does the same scoped to the unit identified by the handle;
neither API ever looks up the undecorated name: when no unit defines the
mangled key the lookup misses (whatever the undecorated tables hold), and
any symbol either API returns bears the mangled key and is exported. -/
theorem findSymbol_mangles_exported_only (j : OrcLazyJIT) (H : Nat)
    (Name : String) :
    OrcLazyJIT.findSymbol j Name
      = codFindSymbol j.codLayer (mangle j.mang Name) true ∧
    OrcLazyJIT.findSymbolIn j H Name
      = codFindSymbolIn j.codLayer H (mangle j.mang Name) true ∧
    ((∀ u ∈ j.codLayer, findDef u.symbols (mangle j.mang Name) true = none) →
      OrcLazyJIT.findSymbol j Name = none) ∧
    (∀ s, OrcLazyJIT.findSymbol j Name = some s →
      s.name = mangle j.mang Name ∧ s.flags.exported = true) ∧
    (∀ s, OrcLazyJIT.findSymbolIn j H Name = some s →
      s.name = mangle j.mang Name ∧ s.flags.exported = true) :=
  ⟨rfl, rfl, fun h => codFindSymbol_eq_none _ _ _ h,
   fun _ hs => codFindSymbol_exported_props _ _ _ hs,
   fun _ hs => codFindSymbolIn_exported_props _ _ _ _ hs⟩

/-- Witness for C6 at the concrete engine `jC6`: looking up "f" queries the
decorated key; looking up "h" (defined but not exported) misses under
exported-only visibility; and the symbol returned for "f" bears the mangled
name and is exported. -/
theorem findSymbol_mangles_exported_only_witness :
    (OrcLazyJIT.findSymbol jC6 "f"
      = codFindSymbol jC6.codLayer (mangle jC6.mang "f") true) ∧
    (OrcLazyJIT.findSymbol jC6 "h" = none) ∧
    (({ name := "_f", address := 7, flags := exportedFlags } : SymbolDef).name
        = mangle jC6.mang "f" ∧
     ({ name := "_f", address := 7
        flags := exportedFlags } : SymbolDef).flags.exported = true) :=
  ⟨(findSymbol_mangles_exported_only jC6 0 "f").1,
   (findSymbol_mangles_exported_only jC6 0 "h").2.2.1 (by decide),
   (findSymbol_mangles_exported_only jC6 0 "f").2.2.2.1
     { name := "_f", address := 7, flags := exportedFlags } (by decide)⟩

/-- Claim C8: trampoline-triggered compilation of a partition is
single-flight.  In every state reachable from the stubbed initial state, at
most one compile-and-link has occurred (exactly one once Resolved); a
Resolved partition admits no further transition, so every racer that
observes the partition after resolution observes the same resolved
address; and while a compile is in flight the only possible transition is
its own completion — a racing call site cannot start a second compile and
blocks until the first completes. -/
theorem cod_partition_single_flight (s v : CODState) (a : Nat)
    (h : Relation.ReflTransGen CODStep codInit s) :
    s.compiles ≤ 1 ∧
    (s.part = .resolved a → s.compiles = 1 ∧
      (Relation.ReflTransGen CODStep s v → v = s ∧ v.part = .resolved a)) ∧
    (∀ t n w, CODStep { part := .compiling t, compiles := n } w →
      ∃ b, b ≠ 0 ∧ w = { part := .resolved b, compiles := n + 1 }) := by
  have inv := cod_reachable_invariant s h
  have habs : s.part = .resolved a →
      Relation.ReflTransGen CODStep s v → v = s := by
    intro hr hsv
    induction hsv with
    | refl => rfl
    | tail hb step ih =>
      exact (codStep_not_from_resolved a _ _ (by rw [ih]; exact hr) step).elim
  refine ⟨?_, fun hr => ⟨inv.2.2 a hr,
      fun hsv => ⟨habs hr hsv, by rw [habs hr hsv]; exact hr⟩⟩,
    fun t n w hw => codStep_from_compiling t n w hw⟩
  cases hp : s.part with
  | stubbed => simp [inv.1 hp]
  | compiling t => simp [inv.2.1 t hp]
  | resolved b => simp [inv.2.2 b hp]

/-- Witness for C8: the state reached by one trampoline acquisition and one
completed compile at address 42 is reachable, has exactly one completed
compile, and is terminally Resolved at 42. -/
theorem cod_partition_single_flight_witness :
    (CODState.mk (.resolved 42) 1).compiles ≤ 1 ∧
    ((CODState.mk (.resolved 42) 1).part = .resolved 42 →
      (CODState.mk (.resolved 42) 1).compiles = 1 ∧
      (Relation.ReflTransGen CODStep (CODState.mk (.resolved 42) 1)
          (CODState.mk (.resolved 42) 1) →
        CODState.mk (.resolved 42) 1 = CODState.mk (.resolved 42) 1 ∧
        (CODState.mk (.resolved 42) 1).part = .resolved 42)) ∧
    (∀ t n w, CODStep { part := .compiling t, compiles := n } w →
      ∃ b, b ≠ 0 ∧ w = { part := .resolved b, compiles := n + 1 }) :=
  cod_partition_single_flight (CODState.mk (.resolved 42) 1)
    (CODState.mk (.resolved 42) 1) 42
    (Relation.ReflTransGen.tail
      (Relation.ReflTransGen.single (CODStep.acquire 0 0))
      (CODStep.finish 0 42 0 (by decide)))

/-- Claim C9: mangling is deterministic: the decorated name is a pure
function of the logical name and the ABI decoration fixed at Engine
construction — two engines with the same ABI decorate identically, adding
a module never changes the engine's ABI decoration, and a lookup on the
engine after an addModule still consults the key mangled with the
construction-time ABI, so two runs of any lookup path on the same name
consult the same decorated key. -/
theorem mangle_fixed_abi_deterministic (j j2 : OrcLazyJIT) (M : Module)
    (Name : String) (h : j2.mang = j.mang) :
    mangle j2.mang Name = mangle j.mang Name ∧
    (addModule j M).jit.mang = j.mang ∧
    OrcLazyJIT.findSymbol (addModule j M).jit Name
      = codFindSymbol (addModule j M).jit.codLayer (mangle j.mang Name) true :=
  ⟨by rw [h], rfl, rfl⟩

/-- Witness for C9 at the concrete engine `jC1` and unit `modA`. -/
theorem mangle_fixed_abi_deterministic_witness :
    mangle jC1.mang "f" = mangle jC1.mang "f" ∧
    (addModule jC1 modA).jit.mang = jC1.mang ∧
    OrcLazyJIT.findSymbol (addModule jC1 modA).jit "f"
      = codFindSymbol (addModule jC1 modA).jit.codLayer
          (mangle jC1.mang "f") true :=
  mangle_fixed_abi_deterministic jC1 jC1 modA "f" rfl

end OrcLazy

namespace DebugInfoPrinter

/-- Claim C10: printFile emits nothing at all when the filename is empty;
otherwise it emits " from " followed by the directory and a "/" separator
only when the directory is non-empty, then the filename, then ":" and the
line number only when the line number is non-zero. -/
theorem printFile_spec (f d : String) (l : Nat) :
    (f = "" → printFile f d l = "") ∧
    (f ≠ "" → d ≠ "" → l ≠ 0 →
      printFile f d l = " from " ++ d ++ "/" ++ f ++ ":" ++ toString l) ∧
    (f ≠ "" → d = "" → l ≠ 0 →
      printFile f d l = " from " ++ f ++ ":" ++ toString l) ∧
    (f ≠ "" → d ≠ "" → l = 0 →
      printFile f d l = " from " ++ d ++ "/" ++ f) ∧
    (f ≠ "" → d = "" → l = 0 →
      printFile f d l = " from " ++ f) := by
  refine ⟨?_, ?_, ?_, ?_, ?_⟩ <;> intros <;>
    simp_all [printFile, OrcLazy.str_append_assoc]

/-- Witness for C10 at concrete inputs covering all four emit shapes and
the empty-filename case. -/
theorem printFile_spec_witness :
    printFile "" "dir" 5 = "" ∧
    printFile "a.c" "dir" 5 = " from " ++ "dir" ++ "/" ++ "a.c" ++ ":"
      ++ toString 5 ∧
    printFile "a.c" "" 5 = " from " ++ "a.c" ++ ":" ++ toString 5 ∧
    printFile "a.c" "dir" 0 = " from " ++ "dir" ++ "/" ++ "a.c" ∧
    printFile "a.c" "" 0 = " from " ++ "a.c" :=
  ⟨(printFile_spec "" "dir" 5).1 rfl,
   (printFile_spec "a.c" "dir" 5).2.1 (by decide) (by decide) (by decide),
   (printFile_spec "a.c" "" 5).2.2.1 (by decide) rfl (by decide),
   (printFile_spec "a.c" "dir" 0).2.2.2.1 (by decide) (by decide) rfl,
   (printFile_spec "a.c" "" 0).2.2.2.2 (by decide) rfl rfl⟩

end DebugInfoPrinter
